import Mathlib

/-!
Verification of the domain-composition and coordinate-transformation engine of the
gridSculpt repository: the weighted blending of local transformation domains
(adaptiveGrid's `transformPoint` / `calculateBlendingWeights`), the legacy
`DeformationManager` blending, inversion and grid-size computations
(localShapeDeformation.js), the domain registry with FIFO eviction and its cache
bookkeeping, the blending-weight profiles, the damped fixed-point iterative inverse,
the `DomainFactory` construction path, and the snapping module.

Numeric conventions: the engine's JavaScript numbers are modelled as exact rationals
where the code only uses field and order operations, and as real numbers where the
code uses `Math.sqrt`, `Math.cos`, `Math.sin` or `Math.exp`. Where a domain appears
only through its method interface (`weightAt`, `transform`, `inverse`,
`curvatureFactor`), it is modelled as a record of those functions.
-/

set_option maxHeartbeats 1000000

/-- A 2D point, as the `{x, y}` objects the engine passes around. -/
structure Pt (α : Type) where
  x : α
  y : α
  deriving DecidableEq, Repr

/-- A transformation domain as seen by the blending engine: the method interface of
the `Domain` class (`weightAt`, `transform`, `inverse`, `curvatureFactor`),
with the transform evaluated in the forward direction. -/
structure ADomain where
  weightAt : Pt ℚ → ℚ
  transform : Pt ℚ → Pt ℚ
  inverse : Pt ℚ → Pt ℚ
  curvatureFactor : Pt ℚ → ℚ

/-- adaptiveGrid `calculateBlendingWeights` (cache layer elided, see the registry
model below for the caches): each domain's weight at the point, and the flat weight
`max 0 (1 - totalWeight)`. -/
def AdaptiveGrid.calculateBlendingWeights (domains : List ADomain) (point : Pt ℚ) :
    List (ADomain × ℚ) × ℚ :=
  let transformWeights := domains.map (fun domain => (domain, domain.weightAt point))
  let totalWeight := (transformWeights.map (fun dw => dw.2)).sum
  (transformWeights, max 0 (1 - totalWeight))

/-- The body of the `forEach` loop in adaptiveGrid `transformPoint`: add
`weight * domain.transform(point)` to the accumulator when the weight is positive. -/
def AdaptiveGrid.blendStep (point : Pt ℚ) (acc : Pt ℚ) (dw : ADomain × ℚ) : Pt ℚ :=
  if 0 < dw.2 then
    ⟨acc.x + dw.2 * (dw.1.transform point).x, acc.y + dw.2 * (dw.1.transform point).y⟩
  else acc

/-- adaptiveGrid `transformPoint` (cache layer elided): if the flat weight is 1 the
point is returned unchanged, otherwise the flat contribution plus each positive-weight
domain's contribution, every domain evaluated on the original point. -/
def AdaptiveGrid.transformPoint (domains : List ADomain) (point : Pt ℚ) : Pt ℚ :=
  let bw := AdaptiveGrid.calculateBlendingWeights domains point
  if bw.2 = 1 then point
  else bw.1.foldl (AdaptiveGrid.blendStep point) ⟨bw.2 * point.x, bw.2 * point.y⟩

/-- Sum of `weight * transform(point).x` over the pairs with positive weight. -/
def activeContributionX (point : Pt ℚ) (tw : List (ADomain × ℚ)) : ℚ :=
  ((tw.filter (fun dw => decide (0 < dw.2))).map
    (fun dw => dw.2 * (dw.1.transform point).x)).sum

/-- Sum of `weight * transform(point).y` over the pairs with positive weight. -/
def activeContributionY (point : Pt ℚ) (tw : List (ADomain × ℚ)) : ℚ :=
  ((tw.filter (fun dw => decide (0 < dw.2))).map
    (fun dw => dw.2 * (dw.1.transform point).y)).sum

/-- The body of the accumulation loop of `DeformationManager.transformPoint`:
accumulates `(totalX, totalY, totalWeight)` over the positive-weight domains. -/
def DeformationManager.weightedAccumStep (point : Pt ℚ) (acc : ℚ × ℚ × ℚ)
    (domain : ADomain) : ℚ × ℚ × ℚ :=
  let weight := domain.weightAt point
  if 0 < weight then
    let transformed := domain.transform point
    (acc.1 + transformed.x * weight, acc.2.1 + transformed.y * weight, acc.2.2 + weight)
  else acc

/-- `DeformationManager.transformPoint` (the legacy blending path, also exposed as
`transformPointWithDomains`): empty domain list returns a copy of the point;
otherwise the weight-normalized average of the positive-weight contributions, or a
copy of the point when the total weight is not positive. -/
def DeformationManager.transformPoint (domains : List ADomain) (point : Pt ℚ) : Pt ℚ :=
  if domains.isEmpty then point
  else
    let totals := domains.foldl (DeformationManager.weightedAccumStep point) (0, 0, 0)
    if 0 < totals.2.2 then ⟨totals.1 / totals.2.2, totals.2.1 / totals.2.2⟩
    else point

/-- Sum of the positive weights at the point. -/
def activeWeightSum (domains : List ADomain) (point : Pt ℚ) : ℚ :=
  ((domains.filter (fun d => decide (0 < d.weightAt point))).map
    (fun d => d.weightAt point)).sum

/-- Sum of `transform(point).x * weight` over the positive-weight domains. -/
def weightedContributionX (domains : List ADomain) (point : Pt ℚ) : ℚ :=
  ((domains.filter (fun d => decide (0 < d.weightAt point))).map
    (fun d => (d.transform point).x * d.weightAt point)).sum

/-- Sum of `transform(point).y * weight` over the positive-weight domains. -/
def weightedContributionY (domains : List ADomain) (point : Pt ℚ) : ℚ :=
  ((domains.filter (fun d => decide (0 < d.weightAt point))).map
    (fun d => (d.transform point).y * d.weightAt point)).sum

/-- `DeformationManager.inverseTransform`: `reduceRight` of the per-domain inverses,
so the last-registered domain's inverse is applied to the input first. -/
def DeformationManager.inverseTransform (domains : List ADomain) (point : Pt ℚ) : Pt ℚ :=
  domains.foldr (fun domain result => domain.inverse result) point

/-- adaptiveGrid `inverseTransformPoint`, which delegates to the legacy
`inverseTransformPointWithDomains`, i.e. `DeformationManager.inverseTransform` over
the registered domains. -/
def AdaptiveGrid.inverseTransformPoint (domains : List ADomain) (point : Pt ℚ) : Pt ℚ :=
  DeformationManager.inverseTransform domains point

/-- The body of the loop of `DeformationManager.calculateGridSize`: multiply the
running size adjustment by
`curvatureFactor(point) * (1 - weight) + (1 - weight * 0.5) * weight` when the
weight is positive. -/
def DeformationManager.gridSizeStep (point : Pt ℚ) (acc : ℚ) (domain : ADomain) : ℚ :=
  let weight := domain.weightAt point
  if 0 < weight then
    acc * (domain.curvatureFactor point * (1 - weight) + (1 - weight * 0.5) * weight)
  else acc

/-- `DeformationManager.calculateGridSize` (also exposed as
`calculateEffectiveGridSize`): `max (baseSize * 0.2) (baseSize * sizeAdjustment)`. -/
def DeformationManager.calculateGridSize (domains : List ADomain) (point : Pt ℚ)
    (baseSize : ℚ) : ℚ :=
  max (baseSize * 0.2) (baseSize * domains.foldl (DeformationManager.gridSizeStep point) 1)

/-- Product of the per-domain grid-size factors over the positive-weight domains. -/
def sizeMultiplier (domains : List ADomain) (point : Pt ℚ) : ℚ :=
  ((domains.filter (fun d => decide (0 < d.weightAt point))).map
    (fun d =>
      d.curvatureFactor point * (1 - d.weightAt point) +
        (1 - d.weightAt point * 0.5) * d.weightAt point)).prod

/-- The snapping module's settings record (`defaultSettings` fields that the
snapping functions consult). -/
structure SnapSettings where
  enabled : Bool
  mode : String
  tolerance : ℚ
  snapStrength : ℚ
  deriving DecidableEq, Repr

/-- The snapping module's `defaultSettings`. -/
def Snapping.defaultSettings : SnapSettings :=
  { enabled := true, mode := "grid", tolerance := 10, snapStrength := 1 }

/-- `snapToGridPoint`: round each coordinate to the nearest multiple of the grid
size, unless snapping is disabled or in mode `none`. -/
def Snapping.snapToGridPoint (settings : SnapSettings) (point : Pt ℚ) (gridSize : ℚ) :
    Pt ℚ :=
  if settings.enabled = false ∨ settings.mode = "none" then point
  else
    ⟨(round (point.x / gridSize) : ℤ) * gridSize,
     (round (point.y / gridSize) : ℤ) * gridSize⟩

/-- `snapTransformedPoint`: inverse-transform, measure the effective grid size at the
original-space point, snap there, and transform back. -/
def Snapping.snapTransformedPoint (settings : SnapSettings) (point : Pt ℚ)
    (transformFn inverseFn : Pt ℚ → Pt ℚ) (effectiveGridSizeFn : Pt ℚ → ℚ) : Pt ℚ :=
  if settings.enabled = false ∨ settings.mode = "none" then point
  else
    let originalPoint := inverseFn point
    let gridSize := effectiveGridSizeFn originalPoint
    let snappedOriginal := Snapping.snapToGridPoint settings originalPoint gridSize
    transformFn snappedOriginal

/-- A registered domain as the registry's lifecycle code sees it: only its identity
matters to creation, FIFO eviction, removal-by-id and clearing. -/
structure RDomain where
  id : ℕ
  deriving DecidableEq, Repr

/-- The adaptiveGrid module's mutable state visible to the registry operations: the
ordered domain list and the three named caches held by the external cache
collaborator (association lists keyed by the string cache keys the code uses). -/
structure GridState (V : Type) where
  transformationDomains : List RDomain
  transformationCache : List (String × V)
  blendingCache : List (String × V)
  gridCellCache : List (String × V)
  deriving DecidableEq, Repr

/-- `createTransformationDomain`: evict the oldest domain (`shift`) when at capacity,
push the new domain, and clear the `transformationCache` and `blendingCache`
(the code does not touch the `gridCellCache` here). -/
def AdaptiveGrid.createTransformationDomain {V : Type} (maxActiveDomains : ℕ)
    (domain : RDomain) (s : GridState V) : GridState V :=
  let domains :=
    if maxActiveDomains ≤ s.transformationDomains.length then
      s.transformationDomains.drop 1
    else s.transformationDomains
  { transformationDomains := domains ++ [domain]
    transformationCache := []
    blendingCache := []
    gridCellCache := s.gridCellCache }

/-- `removeTransformationDomain`: filter out the domain with the given id; clear the
`transformationCache` and `blendingCache` and return `true` only when the length
changed (the `gridCellCache` is again untouched). -/
def AdaptiveGrid.removeTransformationDomain {V : Type} (domainId : ℕ) (s : GridState V) :
    Bool × GridState V :=
  let remaining := s.transformationDomains.filter (fun d => decide (d.id ≠ domainId))
  if remaining.length ≠ s.transformationDomains.length then
    (true,
      { transformationDomains := remaining
        transformationCache := []
        blendingCache := []
        gridCellCache := s.gridCellCache })
  else
    (false, { s with transformationDomains := remaining })

/-- `clearTransformationDomains`: empty the registry and clear the
`transformationCache` and `blendingCache` (the `gridCellCache` is untouched). -/
def AdaptiveGrid.clearTransformationDomains {V : Type} (s : GridState V) : GridState V :=
  { transformationDomains := []
    transformationCache := []
    blendingCache := []
    gridCellCache := s.gridCellCache }

/-- The effect of one `createTransformationDomain` call on the registry list alone. -/
def AdaptiveGrid.registryStep (maxActiveDomains : ℕ) (st : List RDomain) (d : RDomain) :
    List RDomain :=
  (if maxActiveDomains ≤ st.length then st.drop 1 else st) ++ [d]

/-- A sequence of `createTransformationDomain` calls. -/
def AdaptiveGrid.createMany {V : Type} (maxActiveDomains : ℕ) (domains : List RDomain)
    (s : GridState V) : GridState V :=
  domains.foldl (fun st d => AdaptiveGrid.createTransformationDomain maxActiveDomains d st) s

/-- A fresh module state: no domains, all caches empty. -/
def emptyGridState (V : Type) : GridState V :=
  { transformationDomains := []
    transformationCache := []
    blendingCache := []
    gridCellCache := [] }

/-- A state whose grid-cell cache holds one entry, as after a `generateGridCells`
call on an empty registry. -/
def c3State : GridState ℕ :=
  { transformationDomains := []
    transformationCache := []
    blendingCache := []
    gridCellCache := [( "0,0", 7)] }

/-- The three blend-mode keys of the `blendingFunctions` table. -/
inductive BlendMode
  | sharp
  | linear
  | smooth
  deriving DecidableEq, Repr

/-- `blendingFunctions.sharp`: 1 when `distance <= radius`, else 0. -/
noncomputable def blendingFunctions.sharp (distance radius : ℝ) : ℝ :=
  if distance ≤ radius then 1 else 0

/-- `blendingFunctions.linear`: `max 0 (1 - distance / radius)`. -/
noncomputable def blendingFunctions.linear (distance radius : ℝ) : ℝ :=
  max 0 (1 - distance / radius)

/-- `blendingFunctions.smooth`: `0.5 * (1 + cos (π * min 1 (distance / radius)))`. -/
noncomputable def blendingFunctions.smooth (distance radius : ℝ) : ℝ :=
  0.5 * (1 + Real.cos (Real.pi * min 1 (distance / radius)))

/-- A domain as `Domain.weightAt` consults it: center, radius and blend mode. -/
structure CDomain where
  center : Pt ℝ
  radius : ℝ
  blendMode : BlendMode

/-- `Domain.weightAt`: distance from the center (`Math.hypot`), pushed through the
configured blending function against the radius. -/
noncomputable def CDomain.weightAt (domain : CDomain) (point : Pt ℝ) : ℝ :=
  let distance :=
    Real.sqrt ((point.x - domain.center.x) ^ 2 + (point.y - domain.center.y) ^ 2)
  match domain.blendMode with
  | .sharp => blendingFunctions.sharp distance domain.radius
  | .linear => blendingFunctions.linear distance domain.radius
  | .smooth => blendingFunctions.smooth distance domain.radius

/-- The residual magnitude `Math.hypot (target - transform guess)` used by
`Domain._iterativeInverse`. -/
noncomputable def residualNorm (transform : Pt ℝ → Pt ℝ) (target guess : Pt ℝ) : ℝ :=
  Real.sqrt ((target.x - (transform guess).x) ^ 2 + (target.y - (transform guess).y) ^ 2)

/-- One damping step of `Domain._iterativeInverse`: add half the residual to the
guess. -/
def nudgeGuess (transform : Pt ℝ → Pt ℝ) (target guess : Pt ℝ) : Pt ℝ :=
  ⟨guess.x + (target.x - (transform guess).x) * 0.5,
   guess.y + (target.y - (transform guess).y) * 0.5⟩

/-- The iteration loop of `Domain._iterativeInverse` with the remaining iteration
budget as fuel: check the residual, stop if it is below the tolerance, otherwise
nudge and continue. -/
noncomputable def iterativeInverseLoop (transform : Pt ℝ → Pt ℝ) (target : Pt ℝ)
    (tolerance : ℝ) : ℕ → Pt ℝ → Pt ℝ
  | 0, guess => guess
  | n + 1, guess =>
      if residualNorm transform target guess < tolerance then guess
      else iterativeInverseLoop transform target tolerance n (nudgeGuess transform target guess)

/-- `Domain._iterativeInverse` with its default arguments, as invoked from
`Domain.inverse`: tolerance 0.1, 50 iterations, starting from the target itself. -/
noncomputable def Domain.iterativeInverse (transform : Pt ℝ → Pt ℝ) (target : Pt ℝ) :
    Pt ℝ :=
  iterativeInverseLoop transform target 0.1 50 target

/-- The configuration object accepted by the domain factory, with every property
optional (`none` models a JavaScript `undefined` property). -/
structure DomainConfig where
  center : Option (Pt ℝ) := none
  radius : Option ℝ := none
  amplitude : Option ℝ := none
  blendMode : Option String := none
  scale : Option ℝ := none
  octaves : Option ℕ := none
  persistence : Option ℝ := none
  freqX : Option ℝ := none
  freqY : Option ℝ := none
  phase : Option ℝ := none
  spread : Option ℝ := none

/-- A JavaScript value sitting in a constructor's `config` parameter: either a real
configuration object, or a plain string — which is what the single-parameter
constructors receive from `new DomainConstructor(type, config)`, since the `type`
string binds to their first (and only) parameter. Property access on a string
yields `undefined`. -/
inductive JsConfigArg
  | strArg (s : String)
  | objArg (c : DomainConfig)

/-- Property read `arg.center` on a config argument. -/
def JsConfigArg.center : JsConfigArg → Option (Pt ℝ)
  | .strArg _ => none
  | .objArg c => c.center

/-- Property read `arg.radius`. -/
def JsConfigArg.radius : JsConfigArg → Option ℝ
  | .strArg _ => none
  | .objArg c => c.radius

/-- Property read `arg.amplitude`. -/
def JsConfigArg.amplitude : JsConfigArg → Option ℝ
  | .strArg _ => none
  | .objArg c => c.amplitude

/-- Property read `arg.blendMode`. -/
def JsConfigArg.blendMode : JsConfigArg → Option String
  | .strArg _ => none
  | .objArg c => c.blendMode

/-- Property read `arg.scale`. -/
def JsConfigArg.scale : JsConfigArg → Option ℝ
  | .strArg _ => none
  | .objArg c => c.scale

/-- Property read `arg.octaves`. -/
def JsConfigArg.octaves : JsConfigArg → Option ℕ
  | .strArg _ => none
  | .objArg c => c.octaves

/-- Property read `arg.persistence`. -/
def JsConfigArg.persistence : JsConfigArg → Option ℝ
  | .strArg _ => none
  | .objArg c => c.persistence

/-- Property read `arg.freqX`. -/
def JsConfigArg.freqX : JsConfigArg → Option ℝ
  | .strArg _ => none
  | .objArg c => c.freqX

/-- Property read `arg.freqY`. -/
def JsConfigArg.freqY : JsConfigArg → Option ℝ
  | .strArg _ => none
  | .objArg c => c.freqY

/-- Property read `arg.phase`. -/
def JsConfigArg.phase : JsConfigArg → Option ℝ
  | .strArg _ => none
  | .objArg c => c.phase

/-- Property read `arg.spread`. -/
def JsConfigArg.spread : JsConfigArg → Option ℝ
  | .strArg _ => none
  | .objArg c => c.spread

/-- JavaScript `v || d` for a numeric property: both `undefined` and `0` are falsy. -/
noncomputable def jsOrNum (v : Option ℝ) (d : ℝ) : ℝ :=
  match v with
  | none => d
  | some x => if x = 0 then d else x

/-- JavaScript `v || d` for an integer-count property. -/
def jsOrNat (v : Option ℕ) (d : ℕ) : ℕ :=
  match v with
  | none => d
  | some x => if x = 0 then d else x

/-- JavaScript `v || d` for a string property: `undefined` and the empty string are
falsy. -/
def jsOrStr (v : Option String) (d : String) : String :=
  match v with
  | none => d
  | some x => if x = "" then d else x

/-- The fields of a constructed `NoiseDomain` (base `Domain` fields plus its own). -/
structure NoiseDomain where
  type : String
  center : Pt ℝ
  radius : ℝ
  amplitude : ℝ
  blendMode : String
  scale : ℝ
  octaves : ℕ
  persistence : ℝ

/-- The `NoiseDomain` constructor body: `super('noise', config)` defaults plus the
noise-specific defaults, each read from the single `config` argument. -/
noncomputable def NoiseDomain.make (config : JsConfigArg) : NoiseDomain :=
  { type := "noise"
    center := config.center.getD ⟨0, 0⟩
    radius := jsOrNum config.radius 100
    amplitude := jsOrNum config.amplitude 0
    blendMode := jsOrStr config.blendMode "smooth"
    scale := jsOrNum config.scale 0.1
    octaves := jsOrNat config.octaves 3
    persistence := jsOrNum config.persistence 0.5 }

/-- A JavaScript number in the noise computation is a real or NaN, modelled as
`Option ℝ` with `none` for NaN (an `undefined` value used in arithmetic also
behaves as NaN). `jsAdd`, `jsSub`, `jsMul`, `jsDiv` are the NaN-propagating
operations. -/
def jsAdd : Option ℝ → Option ℝ → Option ℝ
  | some a, some b => some (a + b)
  | _, _ => none

/-- JavaScript subtraction with NaN propagation. -/
def jsSub : Option ℝ → Option ℝ → Option ℝ
  | some a, some b => some (a - b)
  | _, _ => none

/-- JavaScript multiplication with NaN propagation; in particular
`jsMul none (some 0) = none`, matching `NaN * 0 = NaN`. -/
def jsMul : Option ℝ → Option ℝ → Option ℝ
  | some a, some b => some (a * b)
  | _, _ => none

/-- JavaScript division with NaN propagation. A zero divisor is modelled as NaN:
in this development it can only arise as `0 / 0` (a zero octave count), which is
NaN in JavaScript; nonzero-over-zero infinities never occur on the paths below. -/
noncomputable def jsDiv : Option ℝ → Option ℝ → Option ℝ
  | some a, some b => if b = 0 then none else some (a / b)
  | _, _ => none

/-- The private `fade` helper of `NoiseDomain`:
`t * t * t * (t * (t * 6 - 15) + 10)`. -/
def NoiseDomain.fade (t : ℝ) : ℝ := t * t * t * (t * (t * 6 - 15) + 10)

/-- The private `grad` helper of `NoiseDomain`: the hash values come from the
permutation table, so they are naturals and the bitwise masks are `Nat.land`. -/
def NoiseDomain.grad (hash : ℕ) (x y : ℝ) : ℝ :=
  let h := hash.land 15
  let u := if h < 8 then x else y
  let v := if h < 4 then y else if h = 12 ∨ h = 14 then x else 0
  (if h.land 1 = 0 then u else -u) + (if h.land 2 = 0 then v else -v)

/-- The private `lerp` helper of `NoiseDomain`: `a + t * (b - a)` over JavaScript
numbers. The two-argument call sites in the single-octave noise pass `none` for
`t`: a missing argument is `undefined`, which behaves as NaN in the arithmetic. -/
def NoiseDomain.lerp (a b t : Option ℝ) : Option ℝ := jsAdd a (jsMul t (jsSub b a))

/-- The private single-octave value noise of `NoiseDomain`. `perm` is the
512-entry `Math.random` permutation table (the only nondeterministic input),
taken as an arbitrary function. The source calls `lerp` with only two arguments
both at the outermost position and at the innermost position, leaving the `t`
parameter undefined there (modelled as `none`). -/
noncomputable def NoiseDomain.singleOctaveNoise (perm : ℕ → ℕ) (x y : ℝ) : Option ℝ :=
  let X := ((⌊x⌋ : ℤ) % 256).toNat
  let Y := ((⌊y⌋ : ℤ) % 256).toNat
  let xf := x - (⌊x⌋ : ℤ)
  let yf := y - (⌊y⌋ : ℤ)
  let u := NoiseDomain.fade xf
  let v := NoiseDomain.fade yf
  let A := perm X + Y
  let B := perm (X + 1) + Y
  NoiseDomain.lerp (some v)
    (NoiseDomain.lerp (some u) (some (NoiseDomain.grad (perm A) xf yf))
      (NoiseDomain.lerp (some u) (some (NoiseDomain.grad (perm B) (xf - 1) yf)) none))
    none

/-- The accumulation loop of the private `noise` method, one iteration per
octave; the state is `(total, frequency, amplitude, maxValue)`, started at
`(some 0, 1, 1, 0)`. -/
noncomputable def NoiseDomain.noiseLoop (perm : ℕ → ℕ) (x y persistence : ℝ) :
    ℕ → Option ℝ × ℝ × ℝ × ℝ → Option ℝ × ℝ × ℝ × ℝ
  | 0, st => st
  | i + 1, st =>
      NoiseDomain.noiseLoop perm x y persistence i
        (jsAdd st.1
            (jsMul (NoiseDomain.singleOctaveNoise perm (x * st.2.1) (y * st.2.1))
              (some st.2.2.1)),
          st.2.1 * 2, st.2.2.1 * persistence, st.2.2.2 + st.2.2.1)

/-- The private `noise` method of `NoiseDomain`: run the octave loop, then divide
the accumulated total by the accumulated maximum amplitude. -/
noncomputable def NoiseDomain.noise (perm : ℕ → ℕ) (d : NoiseDomain) (x y : ℝ) :
    Option ℝ :=
  let st := NoiseDomain.noiseLoop perm x y d.persistence d.octaves (some 0, 1, 1, 0)
  jsDiv st.1 (some st.2.2.2)

/-- `NoiseDomain.transform`: adds `noise((p - center) * scale) * amplitude` to
both coordinates, over JavaScript numbers since the noise value can be (and in
fact always is) NaN. -/
noncomputable def NoiseDomain.transform (perm : ℕ → ℕ) (d : NoiseDomain)
    (point : Pt ℝ) : Pt (Option ℝ) :=
  let noiseVal :=
    jsMul
      (NoiseDomain.noise perm d ((point.x - d.center.x) * d.scale)
        ((point.y - d.center.y) * d.scale))
      (some d.amplitude)
  ⟨jsAdd (some point.x) noiseVal, jsAdd (some point.y) noiseVal⟩

/-- The fields of a constructed `HarmonicDomain`. -/
structure HarmonicDomain where
  type : String
  center : Pt ℝ
  radius : ℝ
  amplitude : ℝ
  blendMode : String
  freqX : ℝ
  freqY : ℝ
  phase : ℝ

/-- The `HarmonicDomain` constructor body. -/
noncomputable def HarmonicDomain.make (config : JsConfigArg) : HarmonicDomain :=
  { type := "harmonic"
    center := config.center.getD ⟨0, 0⟩
    radius := jsOrNum config.radius 100
    amplitude := jsOrNum config.amplitude 0
    blendMode := jsOrStr config.blendMode "smooth"
    freqX := jsOrNum config.freqX 3
    freqY := jsOrNum config.freqY 2
    phase := jsOrNum config.phase 0 }

/-- `HarmonicDomain.transform`: adds `sin(dx * freqX + phase) * amplitude` to x and
`cos(dy * freqY + phase) * amplitude` to y. -/
noncomputable def HarmonicDomain.transform (d : HarmonicDomain) (point : Pt ℝ) : Pt ℝ :=
  let dx := point.x - d.center.x
  let dy := point.y - d.center.y
  ⟨point.x + Real.sin (dx * d.freqX + d.phase) * d.amplitude,
   point.y + Real.cos (dy * d.freqY + d.phase) * d.amplitude⟩

/-- The fields of a constructed `GaussianCurvatureDomain`. -/
structure GaussianCurvatureDomain where
  type : String
  center : Pt ℝ
  radius : ℝ
  amplitude : ℝ
  blendMode : String
  spread : ℝ

/-- The `GaussianCurvatureDomain` constructor body. -/
noncomputable def GaussianCurvatureDomain.make (config : JsConfigArg) :
    GaussianCurvatureDomain :=
  { type := "gaussian-curvature"
    center := config.center.getD ⟨0, 0⟩
    radius := jsOrNum config.radius 100
    amplitude := jsOrNum config.amplitude 0
    blendMode := jsOrStr config.blendMode "smooth"
    spread := jsOrNum config.spread 4 }

/-- The four fixed signed bumps `(x, y, sign)` of `GaussianCurvatureDomain`. -/
def gaussBumps : List (ℝ × ℝ × ℝ) :=
  [(0.5, 0.5, 1), (-0.5, -0.5, 1), (0.5, -0.5, -1), (-0.5, 0.5, -1)]

/-- `GaussianCurvatureDomain.transform`: sums the four signed Gaussian bumps over the
normalized local coordinates and adds `deformation * amplitude` to both
coordinates. -/
noncomputable def GaussianCurvatureDomain.transform (d : GaussianCurvatureDomain)
    (point : Pt ℝ) : Pt ℝ :=
  let u := (point.x - d.center.x) / d.radius
  let v := (point.y - d.center.y) / d.radius
  let deformation :=
    (gaussBumps.map
      (fun b => b.2.2 * Real.exp (-((u - b.1) ^ 2 + (v - b.2.1) ^ 2) * d.spread))).sum
  ⟨point.x + deformation * d.amplitude, point.y + deformation * d.amplitude⟩

/-- The result of `DomainFactory.create` for the three variants whose classes
declare a single-parameter constructor. -/
inductive CreatedDomain
  | noise (d : NoiseDomain)
  | harmonic (d : HarmonicDomain)
  | gaussianCurvature (d : GaussianCurvatureDomain)

/-- `DomainFactory.create` restricted to the noise / harmonic / gaussian-curvature
rows of its constructor map. The JavaScript call `new DomainConstructor(type, config)`
binds these constructors' single `config` parameter to the `type` string and
discards the second argument, so each construction receives `JsConfigArg.strArg type`
rather than the supplied configuration object. Unknown types raise, modelled as
`none`. (The spherical / cylindrical / conic rows use the two-parameter base
constructor and are outside this claim.) -/
noncomputable def DomainFactory.create (type : String) (config : DomainConfig) :
    Option CreatedDomain :=
  match type, config with
  | "noise", _ => some (.noise (NoiseDomain.make (.strArg type)))
  | "harmonic", _ => some (.harmonic (HarmonicDomain.make (.strArg type)))
  | "gaussian-curvature", _ => some (.gaussianCurvature (GaussianCurvatureDomain.make (.strArg type)))
  | _, _ => none



/-- A state holding one registered domain (id 1), used to witness the
removal clauses of the registry cache claim. -/
def c3WitnessState : GridState ℕ :=
  { transformationDomains := [⟨1⟩]
    transformationCache := [( "3,4", 5)]
    blendingCache := [( "3,4", 6)]
    gridCellCache := [( "g", 8)] }

/-- A concrete abstract domain used to witness the legacy-blending claims: weight
1/2 everywhere, transform shifts x by 1. -/
def c10Domain : ADomain where
  weightAt := fun _ => 1 / 2
  transform := fun q => ⟨q.x + 1, q.y⟩
  inverse := fun q => q
  curvatureFactor := fun _ => 1

/-! Theorems. -/

theorem blendFold_eq (point : Pt ℚ) (l : List (ADomain × ℚ)) (a : Pt ℚ) :
    l.foldl (AdaptiveGrid.blendStep point) a =
      ⟨a.x + activeContributionX point l, a.y + activeContributionY point l⟩ := by
  induction l generalizing a with
  | nil => simp [activeContributionX, activeContributionY]
  | cons hd tl ih =>
    by_cases h : 0 < hd.2
    · rw [List.foldl_cons, AdaptiveGrid.blendStep, if_pos h, ih]
      simp only [activeContributionX, activeContributionY, List.filter_cons,
        decide_eq_true_eq, h, if_true, List.map_cons, List.sum_cons, Pt.mk.injEq]
      exact ⟨by ring, by ring⟩
    · rw [List.foldl_cons, AdaptiveGrid.blendStep, if_neg h, ih]
      simp only [activeContributionX, activeContributionY, List.filter_cons,
        decide_eq_true_eq, h, if_false]

/-- C1: `transformPoint` first computes the flat weight as
`max 0 (1 - Σ domain weights)` with the raw, un-renormalized weights; when the flat
weight equals 1 (in particular on an empty registry) it returns the point unchanged,
and otherwise it returns `flatWeight * point + Σ weight * domain.transform(point)`
over the positive-weight domains, each transform evaluated on the original point. -/
theorem transformPoint_blend_spec (domains : List ADomain) (point : Pt ℚ) :
    (AdaptiveGrid.calculateBlendingWeights domains point).2
        = max 0 (1 - (domains.map (fun d => d.weightAt point)).sum)
  ∧ AdaptiveGrid.transformPoint domains point =
      (if (AdaptiveGrid.calculateBlendingWeights domains point).2 = 1 then point
       else
         ⟨(AdaptiveGrid.calculateBlendingWeights domains point).2 * point.x
            + activeContributionX point (AdaptiveGrid.calculateBlendingWeights domains point).1,
          (AdaptiveGrid.calculateBlendingWeights domains point).2 * point.y
            + activeContributionY point (AdaptiveGrid.calculateBlendingWeights domains point).1⟩)
  ∧ AdaptiveGrid.transformPoint [] point = point := by
  refine ⟨?_, ?_, ?_⟩
  · simp [AdaptiveGrid.calculateBlendingWeights, List.map_map, Function.comp_def]
  · rw [AdaptiveGrid.transformPoint]
    split
    · rfl
    · rw [blendFold_eq]
  · simp [AdaptiveGrid.transformPoint, AdaptiveGrid.calculateBlendingWeights]

theorem legacyFold_eq (point : Pt ℚ) (domains : List ADomain) (acc : ℚ × ℚ × ℚ) :
    domains.foldl (DeformationManager.weightedAccumStep point) acc =
      (acc.1 + weightedContributionX domains point,
       acc.2.1 + weightedContributionY domains point,
       acc.2.2 + activeWeightSum domains point) := by
  induction domains generalizing acc with
  | nil => simp [weightedContributionX, weightedContributionY, activeWeightSum]
  | cons hd tl ih =>
    by_cases h : 0 < hd.weightAt point
    · rw [List.foldl_cons, DeformationManager.weightedAccumStep, ih]
      simp only [weightedContributionX, weightedContributionY, activeWeightSum,
        List.filter_cons, decide_eq_true_eq, h, if_true, List.map_cons, List.sum_cons,
        Prod.mk.injEq]
      exact ⟨by ring, by ring, by ring⟩
    · rw [List.foldl_cons, DeformationManager.weightedAccumStep, ih]
      simp only [weightedContributionX, weightedContributionY, activeWeightSum,
        List.filter_cons, decide_eq_true_eq, h, if_false]

/-- C10: the legacy `DeformationManager.transformPoint` (exposed as
`transformPointWithDomains`) returns the point unchanged when no domain has positive
weight at it, and otherwise the weight-normalized average of the positive-weight
contributions with no flat contribution; for a single domain of weight strictly
between 0 and 1 it returns exactly that domain's transform of the point, and it
agrees with the engine's flat-residual `transformPoint` exactly when the domain's
transform fixes the point. -/
theorem legacy_transformPoint_spec (domains : List ADomain) (point : Pt ℚ)
    (d : ADomain) (h0 : 0 < d.weightAt point) (h1 : d.weightAt point < 1) :
    ((∀ d2 ∈ domains, ¬ 0 < d2.weightAt point) →
        DeformationManager.transformPoint domains point = point)
  ∧ (0 < activeWeightSum domains point →
        DeformationManager.transformPoint domains point =
          ⟨weightedContributionX domains point / activeWeightSum domains point,
           weightedContributionY domains point / activeWeightSum domains point⟩)
  ∧ DeformationManager.transformPoint [d] point = d.transform point
  ∧ (DeformationManager.transformPoint [d] point = AdaptiveGrid.transformPoint [d] point
       ↔ d.transform point = point) := by
  have hsingle : DeformationManager.transformPoint [d] point = d.transform point := by
    have hne : d.weightAt point ≠ 0 := ne_of_gt h0
    simp [DeformationManager.transformPoint, DeformationManager.weightedAccumStep, h0,
      hne, mul_div_cancel_right₀]
  refine ⟨?_, ?_, hsingle, ?_⟩
  · intro hall
    rw [DeformationManager.transformPoint]
    by_cases he : domains.isEmpty
    · rw [if_pos he]
    · rw [if_neg he, legacyFold_eq]
      have hfil : domains.filter (fun d2 => decide (0 < d2.weightAt point)) = [] := by
        rw [List.filter_eq_nil_iff]
        intro a ha
        simpa using hall a ha
      have hW : activeWeightSum domains point = 0 := by
        rw [activeWeightSum, hfil]; rfl
      simp [hW]
  · intro hpos
    rw [DeformationManager.transformPoint]
    by_cases he : domains.isEmpty
    · exfalso
      rw [List.isEmpty_iff] at he
      rw [he] at hpos
      simp [activeWeightSum] at hpos
    · rw [if_neg he, legacyFold_eq]
      simp [hpos]
  · rw [hsingle]
    have hw : (AdaptiveGrid.calculateBlendingWeights [d] point).2 = 1 - d.weightAt point := by
      simp [AdaptiveGrid.calculateBlendingWeights]
      linarith
    have hw1 : (1 : ℚ) - d.weightAt point ≠ 0 := ne_of_gt (by linarith)
    have hengine : AdaptiveGrid.transformPoint [d] point =
        ⟨(1 - d.weightAt point) * point.x + d.weightAt point * (d.transform point).x,
         (1 - d.weightAt point) * point.y + d.weightAt point * (d.transform point).y⟩ := by
      rw [AdaptiveGrid.transformPoint]
      simp only [hw]
      rw [if_neg (by intro hc; exact absurd (by linarith : d.weightAt point = 0) (ne_of_gt h0))]
      simp [AdaptiveGrid.blendStep, h0, AdaptiveGrid.calculateBlendingWeights]
    rw [hengine]
    have key : ∀ t p0 : ℚ,
        (t = (1 - d.weightAt point) * p0 + d.weightAt point * t ↔ t = p0) := by
      intro t p0
      have e1 : t - ((1 - d.weightAt point) * p0 + d.weightAt point * t) =
          (1 - d.weightAt point) * (t - p0) := by ring
      have h1w : (1 : ℚ) ≠ d.weightAt point := ne_of_gt h1
      rw [← sub_eq_zero, e1, mul_eq_zero, sub_eq_zero, sub_eq_zero]
      simp [h1w]
    constructor
    · intro h
      have hx := congrArg Pt.x h
      have hy := congrArg Pt.y h
      simp only at hx hy
      have px := (key (d.transform point).x point.x).mp hx
      have py := (key (d.transform point).y point.y).mp hy
      cases hp : d.transform point with
      | mk tx ty =>
        rw [hp] at px py
        simp only at px py
        cases point with
        | mk qx qy =>
          simp only at px py
          rw [px, py]
    · intro h
      rw [h]
      cases point with
      | mk qx qy =>
        simp only [Pt.mk.injEq]
        constructor <;> ring

/-- Witness for C10: a concrete domain with weight 1/2 everywhere and a transform
that shifts x by 1, at the origin. -/
theorem legacy_transformPoint_spec_witness :
    (0 : ℚ) < c10Domain.weightAt ⟨0, 0⟩ ∧ c10Domain.weightAt ⟨0, 0⟩ < 1 ∧
    (((∀ d2 ∈ [c10Domain], ¬ 0 < d2.weightAt ⟨0, 0⟩) →
        DeformationManager.transformPoint [c10Domain] ⟨0, 0⟩ = ⟨0, 0⟩)
  ∧ (0 < activeWeightSum [c10Domain] ⟨0, 0⟩ →
        DeformationManager.transformPoint [c10Domain] ⟨0, 0⟩ =
          ⟨weightedContributionX [c10Domain] ⟨0, 0⟩ / activeWeightSum [c10Domain] ⟨0, 0⟩,
           weightedContributionY [c10Domain] ⟨0, 0⟩ / activeWeightSum [c10Domain] ⟨0, 0⟩⟩)
  ∧ DeformationManager.transformPoint [c10Domain] ⟨0, 0⟩ = c10Domain.transform ⟨0, 0⟩
  ∧ (DeformationManager.transformPoint [c10Domain] ⟨0, 0⟩ =
        AdaptiveGrid.transformPoint [c10Domain] ⟨0, 0⟩
       ↔ c10Domain.transform ⟨0, 0⟩ = ⟨0, 0⟩)) :=
  ⟨by norm_num [c10Domain], by norm_num [c10Domain],
    legacy_transformPoint_spec [c10Domain] ⟨0, 0⟩ c10Domain (by norm_num [c10Domain])
      (by norm_num [c10Domain])⟩

/-- C6: `inverseTransformPoint` composes the per-domain inversions in reverse
registration order — on an empty registry it is the identity, the last-registered
domain's inverse is applied to the input point first and its result fed to the rest,
and the first-registered domain's inverse produces the returned value. -/
theorem inverseTransformPoint_order_spec (domains : List ADomain) (d : ADomain)
    (point : Pt ℚ) :
    AdaptiveGrid.inverseTransformPoint [] point = point
  ∧ AdaptiveGrid.inverseTransformPoint (domains ++ [d]) point =
      AdaptiveGrid.inverseTransformPoint domains (d.inverse point)
  ∧ AdaptiveGrid.inverseTransformPoint (d :: domains) point =
      d.inverse (AdaptiveGrid.inverseTransformPoint domains point) := by
  refine ⟨rfl, ?_, rfl⟩
  simp [AdaptiveGrid.inverseTransformPoint, DeformationManager.inverseTransform,
    List.foldr_append]

theorem gridSizeFold_eq (point : Pt ℚ) (domains : List ADomain) (acc : ℚ) :
    domains.foldl (DeformationManager.gridSizeStep point) acc =
      acc * sizeMultiplier domains point := by
  induction domains generalizing acc with
  | nil => simp [sizeMultiplier]
  | cons hd tl ih =>
    by_cases h : 0 < hd.weightAt point
    · rw [List.foldl_cons, DeformationManager.gridSizeStep, ih]
      simp only [sizeMultiplier, List.filter_cons, decide_eq_true_eq, h, if_true,
        List.map_cons, List.prod_cons]
      ring
    · rw [List.foldl_cons, DeformationManager.gridSizeStep, ih]
      simp only [sizeMultiplier, List.filter_cons, decide_eq_true_eq, h, if_false]

/-- C8: the effective grid size starts from a multiplier of 1, multiplies in
`curvatureFactor(point) * (1 - weight) + (1 - weight/2) * weight` for every
positive-weight domain, and returns `max (baseSize * 0.2) (baseSize * multiplier)`,
so it never falls below 20% of the base size; with no active domains,
`calculateGridSize point 20` is exactly 20. -/
theorem calculateGridSize_spec (domains : List ADomain) (point : Pt ℚ)
    (baseSize : ℚ) :
    DeformationManager.calculateGridSize domains point baseSize =
      max (baseSize * 0.2) (baseSize * sizeMultiplier domains point)
  ∧ baseSize * 0.2 ≤ DeformationManager.calculateGridSize domains point baseSize
  ∧ DeformationManager.calculateGridSize [] point 20 = 20 := by
  refine ⟨?_, le_max_left _ _, ?_⟩
  · rw [DeformationManager.calculateGridSize, gridSizeFold_eq, one_mul]
  · rw [DeformationManager.calculateGridSize]
    norm_num

/-- C9: `snapTransformedPoint` returns the point unchanged when snapping is disabled
or the mode is `none`; otherwise it inverse-transforms the point, computes the
effective grid size at the original-space point, rounds each original-space
coordinate to the nearest multiple of that grid size, and forward-transforms the
snapped point back. With default (enabled, grid-mode) settings, identity transforms
and grid size 10, it snaps `(7, 7)` to `(10, 10)`. -/
theorem snapTransformedPoint_spec (settings : SnapSettings) (point : Pt ℚ)
    (transformFn inverseFn : Pt ℚ → Pt ℚ) (effectiveGridSizeFn : Pt ℚ → ℚ) :
    Snapping.snapTransformedPoint settings point transformFn inverseFn
        effectiveGridSizeFn =
      (if settings.enabled = false ∨ settings.mode = "none" then point
       else
         transformFn
           ⟨(round ((inverseFn point).x / effectiveGridSizeFn (inverseFn point)) : ℤ) *
               effectiveGridSizeFn (inverseFn point),
            (round ((inverseFn point).y / effectiveGridSizeFn (inverseFn point)) : ℤ) *
               effectiveGridSizeFn (inverseFn point)⟩)
  ∧ Snapping.snapTransformedPoint Snapping.defaultSettings ⟨7, 7⟩ id id (fun _ => 10) =
      ⟨10, 10⟩ := by
  constructor
  · rw [Snapping.snapTransformedPoint]
    split
    · rfl
    · next h =>
        simp only [Snapping.snapToGridPoint, if_neg h]
  · rw [Snapping.snapTransformedPoint, if_neg (by decide)]
    simp only [Snapping.snapToGridPoint, if_neg (show ¬ (Snapping.defaultSettings.enabled = false ∨ Snapping.defaultSettings.mode = "none") by decide)]
    have h7 : round ((7 : ℚ) / 10) = 1 := by
      rw [round_eq]
      norm_num
    simp only [id, h7]
    norm_num

theorem createMany_domains (V : Type) (maxActiveDomains : ℕ) (domains : List RDomain)
    (s : GridState V) :
    (AdaptiveGrid.createMany maxActiveDomains domains s).transformationDomains =
      domains.foldl (AdaptiveGrid.registryStep maxActiveDomains)
        s.transformationDomains := by
  induction domains generalizing s with
  | nil => rfl
  | cons hd tl ih =>
    have hstep : AdaptiveGrid.createMany maxActiveDomains (hd :: tl) s =
        AdaptiveGrid.createMany maxActiveDomains tl
          (AdaptiveGrid.createTransformationDomain maxActiveDomains hd s) := rfl
    rw [hstep, ih]
    rfl

theorem registryStep_foldl (maxActiveDomains : ℕ) (hmax : 0 < maxActiveDomains)
    (domains : List RDomain) :
    List.foldl (AdaptiveGrid.registryStep maxActiveDomains) [] domains =
      domains.drop (domains.length - maxActiveDomains) := by
  induction domains using List.reverseRecOn with
  | nil => simp
  | append_singleton ds d ih =>
    rw [List.foldl_append, ih, List.foldl_cons, List.foldl_nil,
      AdaptiveGrid.registryStep]
    by_cases h : maxActiveDomains ≤ ds.length
    · have hlen : (ds.drop (ds.length - maxActiveDomains)).length = maxActiveDomains := by
        rw [List.length_drop]
        omega
      rw [if_pos hlen.ge, List.drop_drop]
      have harr : ds.length - maxActiveDomains + 1 =
          (ds ++ [d]).length - maxActiveDomains := by
        rw [List.length_append]
        simp only [List.length_cons, List.length_nil]
        omega
      rw [harr, List.drop_append_of_le_length (by rw [List.length_append]; simp; omega)]
    · have hz : ds.length - maxActiveDomains = 0 := by omega
      rw [hz, List.drop_zero, if_neg h]
      have hz2 : (ds ++ [d]).length - maxActiveDomains = 0 := by
        rw [List.length_append]
        simp only [List.length_cons, List.length_nil]
        omega
      rw [hz2, List.drop_zero]

/-- C5: starting from an empty registry with positive capacity, the registry never
exceeds `maxActiveDomains` entries along any prefix of a creation sequence, and
creating `maxActiveDomains + k` domains leaves exactly the `maxActiveDomains`
most-recently-created ones — the first `k` (oldest) are evicted in order. -/
theorem registry_capacity_spec (V : Type) (maxActiveDomains k : ℕ)
    (domains : List RDomain) (hmax : 0 < maxActiveDomains) :
    (∀ pre suf : List RDomain, domains = pre ++ suf →
        (AdaptiveGrid.createMany maxActiveDomains pre
            (emptyGridState V)).transformationDomains.length ≤ maxActiveDomains)
  ∧ (domains.length = maxActiveDomains + k →
      (AdaptiveGrid.createMany maxActiveDomains domains
          (emptyGridState V)).transformationDomains = domains.drop k) := by
  constructor
  · intro pre suf hps
    rw [createMany_domains]
    have he : (emptyGridState V).transformationDomains = [] := rfl
    rw [he, registryStep_foldl maxActiveDomains hmax pre, List.length_drop]
    omega
  · intro hlen
    rw [createMany_domains]
    have he : (emptyGridState V).transformationDomains = [] := rfl
    rw [he, registryStep_foldl maxActiveDomains hmax domains, hlen]
    congr 1
    omega

/-- Witness for C5: capacity 5, seven creations (k = 2); the registry keeps the five
most recent domains. -/
theorem registry_capacity_spec_witness :
    0 < 5 ∧
    ((∀ pre suf : List RDomain,
        ([⟨0⟩, ⟨1⟩, ⟨2⟩, ⟨3⟩, ⟨4⟩, ⟨5⟩, ⟨6⟩] : List RDomain) = pre ++ suf →
        (AdaptiveGrid.createMany 5 pre
            (emptyGridState ℕ)).transformationDomains.length ≤ 5)
  ∧ (([⟨0⟩, ⟨1⟩, ⟨2⟩, ⟨3⟩, ⟨4⟩, ⟨5⟩, ⟨6⟩] : List RDomain).length = 5 + 2 →
      (AdaptiveGrid.createMany 5 [⟨0⟩, ⟨1⟩, ⟨2⟩, ⟨3⟩, ⟨4⟩, ⟨5⟩, ⟨6⟩]
          (emptyGridState ℕ)).transformationDomains =
        ([⟨0⟩, ⟨1⟩, ⟨2⟩, ⟨3⟩, ⟨4⟩, ⟨5⟩, ⟨6⟩] : List RDomain).drop 2)) :=
  ⟨by decide, registry_capacity_spec ℕ 5 2 [⟨0⟩, ⟨1⟩, ⟨2⟩, ⟨3⟩, ⟨4⟩, ⟨5⟩, ⟨6⟩] (by decide)⟩

/-- C3 counterexample: creating a transformation domain clears the
forward-transform and blend-weight caches but leaves a previously stored
grid-cell-cache entry in place, so the claim that every registry mutation
invalidates all three derived caches fails on this input. -/
theorem registry_mutation_counterexample :
    (AdaptiveGrid.createTransformationDomain 5 ⟨1⟩ c3State).gridCellCache =
      [( "0,0", 7)]
  ∧ ([( "0,0", 7)] : List (String × ℕ)) ≠ [] :=
  ⟨rfl, by decide⟩

/-- C3 (amended): `createTransformationDomain`, a successful
`removeTransformationDomain` and `clearTransformationDomains` all clear the
forward-transform cache and the blend-weight cache, but none of them touches the
grid-cell geometry cache, which survives every registry mutation unchanged. -/
theorem registry_mutation_cache_spec (V : Type) (maxActiveDomains domainId : ℕ)
    (domain : RDomain) (s : GridState V)
    (hrem : (s.transformationDomains.filter
        (fun d => decide (d.id ≠ domainId))).length ≠ s.transformationDomains.length) :
    (AdaptiveGrid.createTransformationDomain maxActiveDomains domain s).transformationCache = []
  ∧ (AdaptiveGrid.createTransformationDomain maxActiveDomains domain s).blendingCache = []
  ∧ (AdaptiveGrid.createTransformationDomain maxActiveDomains domain s).gridCellCache =
      s.gridCellCache
  ∧ (AdaptiveGrid.removeTransformationDomain domainId s).1 = true
  ∧ (AdaptiveGrid.removeTransformationDomain domainId s).2.transformationCache = []
  ∧ (AdaptiveGrid.removeTransformationDomain domainId s).2.blendingCache = []
  ∧ (AdaptiveGrid.removeTransformationDomain domainId s).2.gridCellCache = s.gridCellCache
  ∧ (AdaptiveGrid.clearTransformationDomains s).transformationCache = []
  ∧ (AdaptiveGrid.clearTransformationDomains s).blendingCache = []
  ∧ (AdaptiveGrid.clearTransformationDomains s).gridCellCache = s.gridCellCache := by
  refine ⟨rfl, rfl, rfl, ?_, ?_, ?_, ?_, rfl, rfl, rfl⟩ <;>
    · simp only [AdaptiveGrid.removeTransformationDomain]
      rw [if_pos hrem]

/-- Witness for C3: a state with one domain (id 1) and all three caches populated;
removing id 1 succeeds. -/
theorem registry_mutation_cache_spec_witness :
    (c3WitnessState.transformationDomains.filter
        (fun d => decide (d.id ≠ 1))).length ≠ c3WitnessState.transformationDomains.length
  ∧ ((AdaptiveGrid.createTransformationDomain 5 ⟨2⟩ c3WitnessState).transformationCache = []
  ∧ (AdaptiveGrid.createTransformationDomain 5 ⟨2⟩ c3WitnessState).blendingCache = []
  ∧ (AdaptiveGrid.createTransformationDomain 5 ⟨2⟩ c3WitnessState).gridCellCache =
      c3WitnessState.gridCellCache
  ∧ (AdaptiveGrid.removeTransformationDomain 1 c3WitnessState).1 = true
  ∧ (AdaptiveGrid.removeTransformationDomain 1 c3WitnessState).2.transformationCache = []
  ∧ (AdaptiveGrid.removeTransformationDomain 1 c3WitnessState).2.blendingCache = []
  ∧ (AdaptiveGrid.removeTransformationDomain 1 c3WitnessState).2.gridCellCache =
      c3WitnessState.gridCellCache
  ∧ (AdaptiveGrid.clearTransformationDomains c3WitnessState).transformationCache = []
  ∧ (AdaptiveGrid.clearTransformationDomains c3WitnessState).blendingCache = []
  ∧ (AdaptiveGrid.clearTransformationDomains c3WitnessState).gridCellCache =
      c3WitnessState.gridCellCache) :=
  ⟨by decide, registry_mutation_cache_spec ℕ 5 1 ⟨2⟩ c3WitnessState (by decide)⟩

/-- C2 counterexample: with sharp blend mode (radius 100, center at the origin), a
point at distance exactly the radius gets weight 1, not 0 — the code's sharp profile
is `distance <= radius ? 1 : 0`, which includes the boundary. -/
theorem weightAt_sharp_boundary_counterexample :
    CDomain.weightAt ⟨⟨0, 0⟩, 100, .sharp⟩ ⟨100, 0⟩ = 1 ∧ (1 : ℝ) ≠ 0 := by
  constructor
  · show blendingFunctions.sharp
      (Real.sqrt (((100 : ℝ) - 0) ^ 2 + ((0 : ℝ) - 0) ^ 2)) 100 = 1
    have hd : Real.sqrt (((100 : ℝ) - 0) ^ 2 + ((0 : ℝ) - 0) ^ 2) = 100 := by
      rw [show ((100 : ℝ) - 0) ^ 2 + ((0 : ℝ) - 0) ^ 2 = 100 ^ 2 by norm_num]
      exact Real.sqrt_sq (by norm_num)
    rw [hd]
    simp only [blendingFunctions.sharp]
    rw [if_pos le_rfl]
  · norm_num

/-- C2 (amended): for a positive radius, `weightAt` at the center is 1 in all three
blend modes; at distance exactly the radius, linear and smooth give 0 while sharp
gives 1 (the sharp step moves to points strictly outside the radius); the profiles
are sharp = indicator of `distance <= radius`, linear = `max 0 (1 - distance/radius)`
and smooth = `0.5 * (1 + cos (π * min 1 (distance/radius)))`; and linear and smooth
are non-increasing in the distance. -/
theorem weightAt_profile_spec (center : Pt ℝ) (radius : ℝ) (hr : 0 < radius) :
    (∀ mode : BlendMode, CDomain.weightAt ⟨center, radius, mode⟩ center = 1)
  ∧ (∀ point : Pt ℝ,
      Real.sqrt ((point.x - center.x) ^ 2 + (point.y - center.y) ^ 2) = radius →
        CDomain.weightAt ⟨center, radius, .sharp⟩ point = 1
      ∧ CDomain.weightAt ⟨center, radius, .linear⟩ point = 0
      ∧ CDomain.weightAt ⟨center, radius, .smooth⟩ point = 0)
  ∧ (∀ distance : ℝ, blendingFunctions.sharp distance radius =
        if distance ≤ radius then 1 else 0)
  ∧ (∀ distance : ℝ,
        blendingFunctions.linear distance radius = max 0 (1 - distance / radius))
  ∧ (∀ distance : ℝ, blendingFunctions.smooth distance radius =
        0.5 * (1 + Real.cos (Real.pi * min 1 (distance / radius))))
  ∧ (∀ d1 d2 : ℝ, 0 ≤ d1 → d1 ≤ d2 →
        blendingFunctions.linear d2 radius ≤ blendingFunctions.linear d1 radius
      ∧ blendingFunctions.smooth d2 radius ≤ blendingFunctions.smooth d1 radius) := by
  have hd0 : Real.sqrt ((center.x - center.x) ^ 2 + (center.y - center.y) ^ 2) = 0 := by
    simp
  refine ⟨?_, ?_, fun _ => rfl, fun _ => rfl, fun _ => rfl, ?_⟩
  · intro mode
    cases mode with
    | sharp =>
      show blendingFunctions.sharp
        (Real.sqrt ((center.x - center.x) ^ 2 + (center.y - center.y) ^ 2)) radius = 1
      rw [hd0]
      simp only [blendingFunctions.sharp]
      rw [if_pos hr.le]
    | linear =>
      show blendingFunctions.linear
        (Real.sqrt ((center.x - center.x) ^ 2 + (center.y - center.y) ^ 2)) radius = 1
      rw [hd0]
      simp only [blendingFunctions.linear, zero_div, sub_zero]
      exact max_eq_right zero_le_one
    | smooth =>
      show blendingFunctions.smooth
        (Real.sqrt ((center.x - center.x) ^ 2 + (center.y - center.y) ^ 2)) radius = 1
      rw [hd0]
      simp only [blendingFunctions.smooth, zero_div]
      rw [min_eq_right zero_le_one, mul_zero, Real.cos_zero]
      norm_num
  · intro point hdist
    refine ⟨?_, ?_, ?_⟩
    · show blendingFunctions.sharp
        (Real.sqrt ((point.x - center.x) ^ 2 + (point.y - center.y) ^ 2)) radius = 1
      rw [hdist]
      simp only [blendingFunctions.sharp]
      rw [if_pos le_rfl]
    · show blendingFunctions.linear
        (Real.sqrt ((point.x - center.x) ^ 2 + (point.y - center.y) ^ 2)) radius = 0
      rw [hdist]
      simp only [blendingFunctions.linear]
      rw [div_self (ne_of_gt hr), sub_self, max_self]
    · show blendingFunctions.smooth
        (Real.sqrt ((point.x - center.x) ^ 2 + (point.y - center.y) ^ 2)) radius = 0
      rw [hdist]
      simp only [blendingFunctions.smooth]
      rw [div_self (ne_of_gt hr), min_self, mul_one, Real.cos_pi]
      norm_num
  · intro d1 d2 h0 h12
    have hdiv : d1 / radius ≤ d2 / radius := (div_le_div_iff_of_pos_right hr).mpr h12
    constructor
    · simp only [blendingFunctions.linear]
      exact max_le_max le_rfl (by linarith)
    · simp only [blendingFunctions.smooth]
      have ht1 : (0 : ℝ) ≤ min 1 (d1 / radius) :=
        le_min zero_le_one (div_nonneg h0 hr.le)
      have ht12 : min 1 (d1 / radius) ≤ min 1 (d2 / radius) := min_le_min le_rfl hdiv
      have ht2 : min 1 (d2 / radius) ≤ 1 := min_le_left _ _
      have hcos : Real.cos (Real.pi * min 1 (d2 / radius)) ≤
          Real.cos (Real.pi * min 1 (d1 / radius)) := by
        apply Real.cos_le_cos_of_nonneg_of_le_pi
        · exact mul_nonneg Real.pi_pos.le ht1
        · calc Real.pi * min 1 (d2 / radius) ≤ Real.pi * 1 :=
                mul_le_mul_of_nonneg_left ht2 Real.pi_pos.le
            _ = Real.pi := mul_one _
        · exact mul_le_mul_of_nonneg_left ht12 Real.pi_pos.le
      linarith

/-- Witness for C2: center at the origin, radius 100. -/
theorem weightAt_profile_spec_witness :
    (0 : ℝ) < 100 ∧
    ((∀ mode : BlendMode, CDomain.weightAt ⟨⟨0, 0⟩, 100, mode⟩ ⟨0, 0⟩ = 1)
  ∧ (∀ point : Pt ℝ,
      Real.sqrt ((point.x - (0 : ℝ)) ^ 2 + (point.y - (0 : ℝ)) ^ 2) = 100 →
        CDomain.weightAt ⟨⟨0, 0⟩, 100, .sharp⟩ point = 1
      ∧ CDomain.weightAt ⟨⟨0, 0⟩, 100, .linear⟩ point = 0
      ∧ CDomain.weightAt ⟨⟨0, 0⟩, 100, .smooth⟩ point = 0)
  ∧ (∀ distance : ℝ, blendingFunctions.sharp distance 100 =
        if distance ≤ 100 then 1 else 0)
  ∧ (∀ distance : ℝ,
        blendingFunctions.linear distance 100 = max 0 (1 - distance / 100))
  ∧ (∀ distance : ℝ, blendingFunctions.smooth distance 100 =
        0.5 * (1 + Real.cos (Real.pi * min 1 (distance / 100))))
  ∧ (∀ d1 d2 : ℝ, 0 ≤ d1 → d1 ≤ d2 →
        blendingFunctions.linear d2 100 ≤ blendingFunctions.linear d1 100
      ∧ blendingFunctions.smooth d2 100 ≤ blendingFunctions.smooth d1 100)) :=
  ⟨by norm_num, weightAt_profile_spec ⟨0, 0⟩ 100 (by norm_num)⟩

theorem iterativeInverseLoop_spec (transform : Pt ℝ → Pt ℝ) (target : Pt ℝ)
    (tolerance : ℝ) (n : ℕ) :
    ∀ guess : Pt ℝ, ∃ k, k ≤ n ∧
      iterativeInverseLoop transform target tolerance n guess =
        (nudgeGuess transform target)^[k] guess
      ∧ (∀ j < k, ¬ residualNorm transform target
            ((nudgeGuess transform target)^[j] guess) < tolerance)
      ∧ (k < n → residualNorm transform target
            (iterativeInverseLoop transform target tolerance n guess) < tolerance) := by
  induction n with
  | zero =>
    intro guess
    exact ⟨0, le_rfl, rfl, fun j hj => absurd hj (Nat.not_lt_zero j),
      fun h => absurd h (lt_irrefl 0)⟩
  | succ n ih =>
    intro guess
    by_cases h : residualNorm transform target guess < tolerance
    · refine ⟨0, Nat.zero_le _, ?_, fun j hj => absurd hj (Nat.not_lt_zero j), ?_⟩
      · simp only [iterativeInverseLoop, if_pos h]
        rfl
      · intro _
        simp only [iterativeInverseLoop, if_pos h]
        exact h
    · obtain ⟨k, hk, heq, hres, hlast⟩ := ih (nudgeGuess transform target guess)
      refine ⟨k + 1, by omega, ?_, ?_, ?_⟩
      · simp only [iterativeInverseLoop, if_neg h]
        rw [heq, ← Function.iterate_succ_apply]
      · intro j hj
        cases j with
        | zero => simpa using h
        | succ j2 =>
          rw [Function.iterate_succ_apply]
          exact hres j2 (by omega)
      · intro hk1
        simp only [iterativeInverseLoop, if_neg h]
        exact hlast (by omega)

/-- C7: `Domain.inverse`'s damped fixed-point iteration starts from the target as
the guess; the result is the first iterate of "add half the residual" whose residual
magnitude drops below the tolerance 0.1 — every earlier iterate has residual at
least the tolerance — and if no iterate within the budget of 50 achieves that, the
50-times-nudged guess is returned as-is, with no error raised. -/
theorem iterativeInverse_spec (transform : Pt ℝ → Pt ℝ) (target : Pt ℝ) :
    ∃ k, k ≤ 50 ∧
      Domain.iterativeInverse transform target =
        (nudgeGuess transform target)^[k] target
      ∧ (∀ j < k, ¬ residualNorm transform target
            ((nudgeGuess transform target)^[j] target) < 0.1)
      ∧ (k < 50 → residualNorm transform target
            (Domain.iterativeInverse transform target) < 0.1) :=
  iterativeInverseLoop_spec transform target 0.1 50 target

theorem singleOctaveNoise_eq_nan (perm : ℕ → ℕ) (x y : ℝ) :
    NoiseDomain.singleOctaveNoise perm x y = none := rfl

/-- C4 counterexample: a noise domain created through the factory does not have an
identity transform — with a concrete permutation table (constantly 0) it maps the
origin to (NaN, NaN) rather than to itself, because the two-argument `lerp` calls
make the noise value NaN and `NaN * 0 = NaN`. -/
theorem noiseTransform_nan_counterexample :
    NoiseDomain.transform (fun _ => 0) (NoiseDomain.make (.strArg "noise")) ⟨0, 0⟩ =
      ⟨none, none⟩
  ∧ (⟨none, none⟩ : Pt (Option ℝ)) ≠ ⟨some 0, some 0⟩ := by
  refine ⟨rfl, ?_⟩
  simp [Pt.mk.injEq]

/-- C4 (amended): for the noise, harmonic and gaussian-curvature types,
`DomainFactory.create` produces a domain that ignores the supplied configuration
entirely — center (0,0), radius 100, amplitude 0, default blend mode and
type-specific options — because `new DomainConstructor(type, config)` binds the
type string to these constructors' single `config` parameter. The harmonic and
gaussian-curvature transforms are consequently the identity on every point
(amplitude 0 with finite sine/cosine/exponential values). The noise transform is
NOT the identity: in the single-octave noise the outermost and innermost
`lerp` calls pass only two arguments, leaving the interpolation parameter
undefined, so the noise value is NaN for every input and every permutation table,
and since `NaN * 0 = NaN` the created noise domain maps every point to
(NaN, NaN). -/
theorem domainFactory_ignores_config (config : DomainConfig) (perm : ℕ → ℕ)
    (point : Pt ℝ) (x y : ℝ) :
    DomainFactory.create "noise" config =
        some (.noise { type := "noise", center := ⟨0, 0⟩, radius := 100, amplitude := 0,
                       blendMode := "smooth", scale := 0.1, octaves := 3,
                       persistence := 0.5 })
  ∧ DomainFactory.create "harmonic" config =
        some (.harmonic { type := "harmonic", center := ⟨0, 0⟩, radius := 100,
                          amplitude := 0, blendMode := "smooth", freqX := 3, freqY := 2,
                          phase := 0 })
  ∧ DomainFactory.create "gaussian-curvature" config =
        some (.gaussianCurvature { type := "gaussian-curvature", center := ⟨0, 0⟩,
                                   radius := 100, amplitude := 0, blendMode := "smooth",
                                   spread := 4 })
  ∧ NoiseDomain.singleOctaveNoise perm x y = none
  ∧ NoiseDomain.transform perm (NoiseDomain.make (.strArg "noise")) point =
      ⟨none, none⟩
  ∧ HarmonicDomain.transform (HarmonicDomain.make (.strArg "harmonic")) point = point
  ∧ GaussianCurvatureDomain.transform
      (GaussianCurvatureDomain.make (.strArg "gaussian-curvature")) point = point := by
  refine ⟨rfl, rfl, rfl, rfl, rfl, ?_, ?_⟩
  · simp [HarmonicDomain.transform, HarmonicDomain.make, jsOrNum, JsConfigArg.center,
      JsConfigArg.freqX, JsConfigArg.freqY, JsConfigArg.phase, JsConfigArg.amplitude]
  · simp [GaussianCurvatureDomain.transform, GaussianCurvatureDomain.make, jsOrNum,
      JsConfigArg.center, JsConfigArg.radius, JsConfigArg.spread, JsConfigArg.amplitude]
